import Mathlib

/-!
Verification of the water-code-scraper repository (two Python sources:
`water-code-scraper.py` and `ccr-scraper.py`) against its natural-language
specification.  The HTML documents handled by BeautifulSoup are modelled by a
mutual inductive tree; each scraper function is translated to an executable
Lean function over that tree.  Network and file effects are modelled by
explicit oracles (`WSite`, `CSite`): a fetch either yields a parsed document
or an error, and an image download either succeeds or fails.  Python
exceptions are modelled with `Except`: a function that lets an exception
escape is embedded as returning `.error`, while code that catches an
exception maps it to the caught branch.
-/

/-! ## String utilities

Python string operations (`in`, `lower`, `upper`, `strip`, `rstrip`,
re-based substitutions) modelled on explicit character lists, so that all
definitions evaluate inside the kernel. -/

/-- Substring test on char lists: does `s` contain `pat` as a contiguous run? -/
def containsSubAux (pat : List Char) : List Char → Bool
  | [] => pat.isEmpty
  | c :: rest => pat.isPrefixOf (c :: rest) || containsSubAux pat rest

/-- Python `pat in s` (substring containment). -/
def containsSub (s pat : String) : Bool := containsSubAux pat.toList s.toList

/-- Python `s.lower()` (ASCII case folding, as used by the scrapers). -/
def lowerStr (s : String) : String := (s.toList.map Char.toLower).asString

/-- Python `s.upper()` (ASCII case folding, as used by the scrapers). -/
def upperStr (s : String) : String := (s.toList.map Char.toUpper).asString

/-- Python whitespace class `\s` (space, tab, newline, CR, FF, VT). -/
def isPyWs (c : Char) : Bool :=
  c = ' ' || c = '\t' || c = '\n' || c = '\r' || c = '\x0b' || c = '\x0c'

/-- Python `s.strip()`: drop leading and trailing whitespace. -/
def stripStr (s : String) : String :=
  ((s.toList.dropWhile isPyWs).reverse.dropWhile isPyWs).reverse.asString

/-- Python `s.rstrip('.')`: drop all trailing dots. -/
def rstripDots (s : String) : String :=
  (s.toList.reverse.dropWhile (· = '.')).reverse.asString

/-- Python `re.sub(r'\s+', '_', s)` on a char list: each maximal whitespace
run becomes a single underscore (the flag records an open whitespace run). -/
def collapseWsAux (inWs : Bool) : List Char → List Char
  | [] => []
  | c :: rest =>
    if isPyWs c then
      if inWs then collapseWsAux true rest
      else '_' :: collapseWsAux true rest
    else c :: collapseWsAux false rest

/-- Python `re.sub(r'\s+', '_', s)`. -/
def collapseWs (s : String) : String := (collapseWsAux false s.toList).asString

/-- Python whitespace-split (used by BeautifulSoup for multi-valued `class`
attributes): maximal non-whitespace runs, accumulator-based. -/
def splitWsAux (acc : List Char) : List Char → List (List Char)
  | [] => if acc.isEmpty then [] else [acc.reverse]
  | c :: rest =>
    if isPyWs c then
      if acc.isEmpty then splitWsAux [] rest
      else acc.reverse :: splitWsAux [] rest
    else splitWsAux (c :: acc) rest

/-- Class-attribute tokenisation. -/
def splitWsStr (s : String) : List String := (splitWsAux [] s.toList).map List.asString

/-- Python `str(n)` for the filename counters. -/
def natStr (n : Nat) : String := toString n

/-! ## HTML document model

A parsed BeautifulSoup document: text nodes and element nodes carrying a tag
name, an attribute list and ordered children.  `HtmlList` makes the tree a
mutual inductive so that structural mutual recursion and induction are
available. -/

mutual
inductive Html where
  | text : String → Html
  | elem : String → List (String × String) → HtmlList → Html
deriving DecidableEq
inductive HtmlList where
  | nil : HtmlList
  | cons : Html → HtmlList → HtmlList
deriving DecidableEq
end

/-- Attribute lookup (`tag.get(name)`); first occurrence wins, as in the
parser's attribute dict. -/
def getAttrA (attrs : List (String × String)) (name : String) : Option String :=
  (attrs.find? (fun p => p.1 = name)).map (·.2)

/-- BeautifulSoup `tag.get('class', [])`: whitespace-split token list. -/
def classesA (attrs : List (String × String)) : List String :=
  match getAttrA attrs "class" with
  | none => []
  | some s => splitWsStr s

/-- Tag name of a node (text nodes have none). -/
def tagOf : Html → Option String
  | .text _ => none
  | .elem n _ _ => some n

/-- Attributes of a node. -/
def attrsOf : Html → List (String × String)
  | .text _ => []
  | .elem _ a _ => a

mutual
/-- All text descendants of a node, in document order (`get_text` pieces). -/
def textsOf : Html → List String
  | .text s => [s]
  | .elem _ _ cs => textsOfL cs
def textsOfL : HtmlList → List String
  | .nil => []
  | .cons h t => textsOf h ++ textsOfL t
end

/-- BeautifulSoup `get_text()` (no stripping). -/
def getTextRaw (t : Html) : String := String.join (textsOf t)

/-- BeautifulSoup `get_text(strip=True)`: each text fragment stripped, all
joined with the empty separator. -/
def getTextStrip (t : Html) : String := String.join ((textsOf t).map stripStr)

mutual
/-- BeautifulSoup `find(...)` over a child list: first node (pre-order)
satisfying `p`. -/
def findHtmlL (p : Html → Bool) : HtmlList → Option Html
  | .nil => none
  | .cons h t =>
    if p h then some h
    else
      match findInside p h with
      | some r => some r
      | none => findHtmlL p t
/-- BeautifulSoup `node.find(...)`: searches descendants only, pre-order. -/
def findInside (p : Html → Bool) : Html → Option Html
  | .text _ => none
  | .elem _ _ cs => findHtmlL p cs
end

mutual
/-- BeautifulSoup `find_all(...)` over a child list, pre-order;
a matching node is listed before its own matching descendants. -/
def findAllL (p : Html → Bool) : HtmlList → List Html
  | .nil => []
  | .cons h t => (if p h then [h] else []) ++ findAllInside p h ++ findAllL p t
/-- BeautifulSoup `node.find_all(...)`: all matching descendants. -/
def findAllInside (p : Html → Bool) : Html → List Html
  | .text _ => []
  | .elem _ _ cs => findAllL p cs
end

/-- Node predicate: element with the given tag. -/
def isTag (tg : String) (t : Html) : Bool := tagOf t = some tg

/-- Node predicate: `div` with a given `id` attribute
(`find('div', {'id': idv})`); depends only on the node's tag and
attributes. -/
def isDivWithId (idv : String) (t : Html) : Bool :=
  tagOf t = some "div" && getAttrA (attrsOf t) "id" = some idv

/-- Node predicate: element of tag `tg` whose class token list contains
`cls` (`find(tg, class_=cls)`). -/
def isTagWithClass (tg cls : String) (t : Html) : Bool :=
  tagOf t = some tg && (classesA (attrsOf t)).contains cls

/-- Node predicate: element with a given attribute value
(e.g. `find_all('div', {'align': 'left'})`). -/
def isTagWithAttr (tg name val : String) (t : Html) : Bool :=
  tagOf t = some tg && getAttrA (attrsOf t) name = some val

/-- Node predicate: `div` whose `style` attribute contains a substring
(`find('div', style=lambda x: x and sub in x)`). -/
def isDivStyleContaining (sub : String) (t : Html) : Bool :=
  tagOf t = some "div" &&
    (match getAttrA (attrsOf t) "style" with
     | none => false
     | some st => containsSub st sub)

/-- Node predicate: anchor carrying an `href` attribute
(`find_all('a', href=True)`). -/
def isAnchorWithHref (t : Html) : Bool :=
  tagOf t = some "a" && (getAttrA (attrsOf t) "href").isSome

/-- Node predicate: element whose tag is one of h3, h4, h5 (the header scan
of `parse_legal_code_html`). -/
def isHeaderTag (t : Html) : Bool :=
  match tagOf t with
  | some n => n = "h3" || n = "h4" || n = "h5"
  | none => false

/-! ## ccr-scraper.py : inline subscript/superscript rewriting

`convert_subscripts_to_text` iterates `find_all('sub')` replacing each run
with `"_" + text`, then `find_all('sup')` with `"^" + text`, mutating the
tree via `replace_with`.  The net effect on a (non-pathological) tree is two
structural passes: one replacing every `sub` descendant, one replacing every
`sup` descendant. -/

mutual
/-- One replacement pass: every element with tag `tg` becomes a text node
holding the marker followed by the run's raw text (`get_text()`). -/
def replaceRuns (tg mark : String) : Html → Html
  | .text s => .text s
  | .elem n a cs =>
    if n = tg then .text (mark ++ getTextRaw (.elem n a cs))
    else .elem n a (replaceRunsL tg mark cs)
def replaceRunsL (tg mark : String) : HtmlList → HtmlList
  | .nil => .nil
  | .cons h t => .cons (replaceRuns tg mark h) (replaceRunsL tg mark t)
end

/-- `convert_subscripts_to_text(element)`: subscript pass then superscript
pass over the element's descendants (the element itself is not a candidate,
since `find_all` searches descendants only). -/
def convert_subscripts_to_text : Html → Html
  | .text s => .text s
  | .elem n a cs => .elem n a (replaceRunsL "sup" "^" (replaceRunsL "sub" "_" cs))

/-! ## ccr-scraper.py : formula image extraction -/

/-- Python `s.startswith(pre)` (kernel-reducible). -/
def strStartsWith (s pre : String) : Bool := pre.toList.isPrefixOf s.toList

/-- Absolute form of the image source: the three branches of
`process_mathematical_images` (`urljoin` applied to the fixed bases as the
code does for root-relative and relative sources). -/
def resolveImgUrl (src : String) : String :=
  if strStartsWith src "/" then "https://govt.westlaw.com" ++ src
  else if strStartsWith src "http" then src
  else "https://shared-govt.westlaw.com/" ++ src

/-- Character class of `re.sub(r'[<>:"/\\|?*§.]', '_', section_title)` in
`download_image`. -/
def isImgBadChar (c : Char) : Bool :=
  c = '<' || c = '>' || c = ':' || c = '"' || c = '/' || c = '\\' || c = '|' ||
  c = '?' || c = '*' || c = '§' || c = '.'

/-- Title sanitisation of `download_image`: illegal characters to `_`, then
whitespace runs to `_`. -/
def cleanImgTitle (title : String) : String :=
  collapseWs ((title.toList.map (fun c => if isImgBadChar c then '_' else c)).asString)

/-- Scan for the `://` scheme separator. -/
def afterSchemeSep : List Char → Option (List Char)
  | ':' :: '/' :: '/' :: rest => some rest
  | _ :: rest => afterSchemeSep rest
  | [] => none

/-- The path of `urlparse(url)`: strip fragment and query, then drop
`scheme://host`. -/
def dropHostChars (l : List Char) : List Char :=
  match afterSchemeSep l with
  | some rest => rest.dropWhile (· ≠ '/')
  | none => l

/-- Python `urlparse(img_url).path.split('/')[-1]` with the
`"formula.png"` fallback of `download_image`. -/
def imgBaseName (imgUrl : String) : String :=
  let path := dropHostChars ((imgUrl.toList.takeWhile (· ≠ '#')).takeWhile (· ≠ '?'))
  let nm := (path.reverse.takeWhile (· ≠ '/')).reverse.asString
  if nm = "" || !containsSub nm "." then "formula.png" else nm

/-- The local filename `f"{clean_title}_{img_name}"`. -/
def localImageFilename (imgUrl sectionTitle : String) : String :=
  cleanImgTitle sectionTitle ++ "_" ++ imgBaseName imgUrl

/-- `download_image(img_url, section_title)`: the oracle `dl` decides whether
the HTTP GET (and file write) succeeds; the surrounding `try` maps any
failure to `None`. -/
def download_image (dl : String → Bool) (imgUrl sectionTitle : String) : Option String :=
  if dl imgUrl then some (localImageFilename imgUrl sectionTitle) else none

/-- One extracted-image record of `process_mathematical_images`. -/
structure ImgRecord where
  original_url : String
  local_file : String
  alt_text : String
  description : String
deriving DecidableEq

/-- The mathematical-image heuristic of `process_mathematical_images`:
figure-tagged parent, or the (lowercased) alt text contains one of the
keywords. -/
def imgQualifies (parentClasses : List String) (altLower : String) : Bool :=
  parentClasses.any (fun cls => containsSub cls "figure") ||
  containsSub altLower "formula" || containsSub altLower "equation" ||
  containsSub altLower "sum" || containsSub altLower "equals" ||
  containsSub altLower "water loss"

/-- Whether an `img` node is selected for download/replacement: a truthy
`src` attribute (`if img_src:`) and the qualification heuristic. -/
def imgSelected (parentClasses : List String) (attrs : List (String × String)) : Bool :=
  match getAttrA attrs "src" with
  | none => false
  | some src =>
    src ≠ "" && imgQualifies parentClasses (lowerStr ((getAttrA attrs "alt").getD ""))

/-- The replacement text node
`f"\n[IMAGE: {local_filename} - {img.get('alt', 'Mathematical formula')}]\n"`;
the default applies only when the `alt` attribute is absent. -/
def imgPlaceholder (localFile : String) (altAttr : Option String) : String :=
  "\n[IMAGE: " ++ localFile ++ " - " ++ altAttr.getD "Mathematical formula" ++ "]\n"

/-- The dictionary appended to `images_downloaded`. -/
def imgRecordOf (imgUrl localFile : String) (altAttr : Option String)
    (sectionTitle : String) : ImgRecord :=
  ⟨imgUrl, localFile, altAttr.getD "", "Mathematical formula from " ++ sectionTitle⟩

mutual
/-- `process_mathematical_images` over one node, knowing the class tokens of
its parent (`img.parent.get('class', [])`): a selected `img` whose download
succeeds is replaced in place by the placeholder text node and recorded; on
download failure the node stays (and is not recorded). -/
def pmiNode (dl : String → Bool) (sectionTitle : String) (parentClasses : List String) :
    Html → Html × List ImgRecord
  | .text s => (.text s, [])
  | .elem n a cs =>
    if n = "img" && imgSelected parentClasses a then
      let url := resolveImgUrl ((getAttrA a "src").getD "")
      match download_image dl url sectionTitle with
      | some f =>
        (.text (imgPlaceholder f (getAttrA a "alt")),
         [imgRecordOf url f (getAttrA a "alt") sectionTitle])
      | none =>
        let r := pmiL dl sectionTitle (classesA a) cs
        (.elem n a r.1, r.2)
    else
      let r := pmiL dl sectionTitle (classesA a) cs
      (.elem n a r.1, r.2)
def pmiL (dl : String → Bool) (sectionTitle : String) (parentClasses : List String) :
    HtmlList → HtmlList × List ImgRecord
  | .nil => (.nil, [])
  | .cons h t =>
    let rh := pmiNode dl sectionTitle parentClasses h
    let rt := pmiL dl sectionTitle parentClasses t
    (.cons rh.1 rt.1, rh.2 ++ rt.2)
end

/-- `process_mathematical_images(soup, section_title)`: processes every
`img` descendant of the document root in document order; returns the mutated
tree and the `images_downloaded` records. -/
def process_mathematical_images (dl : String → Bool) (sectionTitle : String) :
    Html → Html × List ImgRecord
  | .text s => (.text s, [])
  | .elem n a cs =>
    let r := pmiL dl sectionTitle (classesA a) cs
    (.elem n a r.1, r.2)

/-! ## ccr-scraper.py : section content extraction -/

/-- The regex `^\([a-z]\)` of `process_section_block`. -/
def startsParenLetter (s : String) : Bool :=
  match s.toList with
  | '(' :: c :: ')' :: _ => 'a' ≤ c && c ≤ 'z'
  | _ => false

/-- One `co_paragraph` inside a section block: a blank line precedes a
paragraph that opens a new lettered subsection group. -/
def sectionParaLines (p : Html) : List String :=
  let t := getTextStrip p
  if t = "" then []
  else (if startsParenLetter t then [""] else []) ++ [t]

/-- `process_section_block`. -/
def process_section_block (block : Html) : List String :=
  ((findAllInside (isTagWithClass "div" "co_paragraph") block).map sectionParaLines).flatten
  ++ [""]

/-- `process_subsection_block`. -/
def process_subsection_block (block : Html) : List String :=
  let t := getTextStrip block
  if t = "" then [] else [t, ""]

/-- `process_paragraph_block`. -/
def process_paragraph_block (block : Html) : List String :=
  let t := getTextStrip block
  if t = "" then [] else [t]

/-- The per-block dispatch of `extract_section_content`: metadata blocks are
skipped, the rest are sub/sup-rewritten and dispatched on their class. -/
def blockContribution (block : Html) : List String :=
  let cls := classesA (attrsOf block)
  if cls.contains "co_documentHead" || cls.contains "co_printHeading" then []
  else
    let b := convert_subscripts_to_text block
    if cls.contains "co_section" then process_section_block b
    else if cls.contains "co_subsection" then process_subsection_block b
    else if cls.contains "co_paragraph" then process_paragraph_block b
    else
      let t := getTextStrip b
      if t ≠ "" &&
         !(strStartsWith t "Note:" || strStartsWith t "History:" || strStartsWith t "Credits")
      then [t, ""] else []

/-- Node predicate: element of tag `tg` with a given `id`. -/
def isTagWithId (tg idv : String) (t : Html) : Bool :=
  tagOf t = some tg && getAttrA (attrsOf t) "id" = some idv

/-- The title part of the header block: title text, an `=` underline of the
title's length, then a blank line. -/
def titleLines (ts : Html) : List String :=
  match findInside (isTag "h1") ts with
  | none => []
  | some h => 
    let t := getTextStrip h
    [t, (List.replicate t.length '=').asString, ""]

/-- The citation part of the header block: every non-empty `li` of the
citation list, then a blank line. -/
def citationLines (ts : Html) : List String :=
  match findInside (isTagWithId "ul" "co_docHeaderCitation") ts with
  | none => []
  | some ul => ((findAllInside (isTag "li") ul).map getTextStrip).filter (· ≠ "") ++ [""]

/-- The heading block of `extract_section_content` (built from
`co_docHeaderTitle` when present). -/
def headingLines (soup : Html) : List String :=
  match findInside (isDivWithId "co_docHeaderTitle") soup with
  | none => []
  | some ts => titleLines ts ++ citationLines ts

/-- The lines contributed by the `co_contentBlock` divs of `co_document`. -/
def contentBlocksLines (doc : Html) : List String :=
  ((findAllInside (isTagWithClass "div" "co_contentBlock") doc).map blockContribution).flatten

/-- External world of ccr-scraper.py: `fetch` models `get_page_content`
(`None` on any error) and `download` models the image GET of
`download_image`. -/
structure CSite where
  fetch : String → Option Html
  download : String → Bool

/-- `extract_section_content(section_url, section_title)`: formula images
are processed first; a missing `co_document` container yields empty content
paired with the already-extracted image records. -/
def extract_section_content (site : CSite) (url sectionTitle : String) :
    String × List ImgRecord :=
  match site.fetch url with
  | none => ("", [])
  | some soup =>
    let pr := process_mathematical_images site.download sectionTitle soup
    match findInside (isDivWithId "co_document") pr.1 with
    | none => ("", pr.2)
    | some doc =>
      (String.intercalate "\n" (headingLines pr.1 ++ contentBlocksLines doc), pr.2)

mutual
/-- In-place effect of the normalizer proper on nodes below `co_document`:
every non-skipped `co_contentBlock` div is sub/sup-rewritten
(`block = self.convert_subscripts_to_text(block)` mutates the shared tree). -/
def convertBlocksN : Html → Html
  | .text s => .text s
  | .elem n a cs =>
    if n = "div" && (classesA a).contains "co_contentBlock" then
      if (classesA a).contains "co_documentHead" || (classesA a).contains "co_printHeading" then
        .elem n a (convertBlocksL cs)
      else convert_subscripts_to_text (.elem n a cs)
    else .elem n a (convertBlocksL cs)
def convertBlocksL : HtmlList → HtmlList
  | .nil => .nil
  | .cons h t => .cons (convertBlocksN h) (convertBlocksL t)
end

mutual
/-- Locate the first (pre-order) `co_document` div and rewrite the content
blocks below it; the Boolean records whether it was found. -/
def anApplyN : Html → Html × Bool
  | .text s => (.text s, false)
  | .elem n a cs =>
    if isDivWithId "co_document" (.elem n a cs) then
      (.elem n a (convertBlocksL cs), true)
    else
      let r := anApplyL cs
      (.elem n a r.1, r.2)
def anApplyL : HtmlList → HtmlList × Bool
  | .nil => (.nil, false)
  | .cons h t =>
    let rh := anApplyN h
    if rh.2 then (.cons rh.1 t, true)
    else
      let rt := anApplyL t
      (.cons rh.1 rt.1, rt.2)
end

/-- Cumulative mutation that one `extract_section_content` call performs on
the already image-substituted document tree: the sub/sup rewriting of every
processed content block under the first `co_document` container.  (The
`find` that locates the container searches descendants of the root only.) -/
def applyNormalize : Html → Html
  | .text s => .text s
  | .elem n a cs => .elem n a (anApplyL cs).1

/-! ## ccr-scraper.py : chapter driver -/

/-- An article link discovered on the chapter page. -/
structure ArticleEntry where
  title : String
  url : String
deriving DecidableEq

/-- A section link discovered on an article page. -/
structure SectionEntry where
  title : String
  url : String
deriving DecidableEq

/-- `urljoin(self.base_url, href)` for the shared-govt base, in the cases
the scraper meets. -/
def urljoinShared (href : String) : String :=
  if strStartsWith href "http" then href
  else if strStartsWith href "/" then "https://shared-govt.westlaw.com" ++ href
  else "https://shared-govt.westlaw.com/" ++ href

/-- One `li` of a `co_genericWhiteBox` list: kept iff it holds an anchor
with a truthy `href` (`if link and link.get('href')`). -/
def linkEntryOf (li : Html) : Option (String × String) :=
  match findInside (isTag "a") li with
  | none => none
  | some link =>
    match getAttrA (attrsOf link) "href" with
    | none => none
    | some href =>
      if href = "" then none
      else some (getTextStrip link, urljoinShared href)

/-- `extract_articles_from_chapter(chapter_url)`. -/
def extract_articles_from_chapter (site : CSite) (chapterUrl : String) :
    List ArticleEntry :=
  match site.fetch chapterUrl with
  | none => []
  | some soup =>
    match findInside (isTagWithClass "ul" "co_genericWhiteBox") soup with
    | none => []
    | some ul =>
      ((findAllInside (isTag "li") ul).filterMap linkEntryOf).map
        (fun p => { title := p.1, url := p.2 })

/-- `extract_sections_from_article(article_url)`. -/
def extract_sections_from_article (site : CSite) (articleUrl : String) :
    List SectionEntry :=
  match site.fetch articleUrl with
  | none => []
  | some soup =>
    match findInside (isTagWithClass "ul" "co_genericWhiteBox") soup with
    | none => []
    | some ul =>
      ((findAllInside (isTag "li") ul).filterMap linkEntryOf).map
        (fun p => { title := p.1, url := p.2 })

/-- Character class of `create_safe_filename` (characters removed). -/
def isSafeBadChar (c : Char) : Bool :=
  c = '§' || c = '<' || c = '>' || c = ':' || c = '"' || c = '/' || c = '\\' ||
  c = '|' || c = '?' || c = '*'

/-- `create_safe_filename(title)`. -/
def create_safe_filename (title : String) : String :=
  let cleaned := (title.toList.filter (fun c => !isSafeBadChar c)).asString
  let collapsed := collapseWs (stripStr cleaned)
  if collapsed.length > 100 then (collapsed.toList.take 100).asString else collapsed

/-- The per-section output filename
`f"article_{i}_section_{j}_{...}.txt"`. -/
def sectionFilename (i j : Nat) (title : String) : String :=
  "article_" ++ natStr i ++ "_section_" ++ natStr j ++ "_" ++
  create_safe_filename title ++ ".txt"

/-- Log entry for one successfully written section. -/
structure SectionLog where
  title : String
  url : String
  filename : String
  images : List String
deriving DecidableEq

/-- Log entry for one article. -/
structure ArticleLog where
  title : String
  url : String
  sections : List SectionLog
deriving DecidableEq

/-- The `scraping_log` dictionary serialized to `scraping_log.json`. -/
structure ScrapingLog where
  chapter_title : String
  chapter_url : String
  articles : List ArticleLog
  total_sections : Nat
  images_downloaded : Nat
deriving DecidableEq

/-- Observable outcome of one `scrape_chapter_3_5` run: the scraping log,
the `all_images` accumulator (serialized to `images_metadata.json` when
non-empty), and the list of image files physically written to disk by
`download_image` (one per returned record, including records of sections
whose content came back empty). -/
structure RunResult where
  log : ScrapingLog
  all_images : List ImgRecord
  downloaded : List ImgRecord
deriving DecidableEq

/-- Accumulator of the inner section loop of `scrape_chapter_3_5`. -/
structure SectsAcc where
  logs : List SectionLog
  included : List ImgRecord
  downloaded : List ImgRecord
  written : Nat
deriving DecidableEq

/-- The section loop of `scrape_chapter_3_5`: a section with non-empty
content is written, its images are added to `all_images` and its log entry
appended with `total_sections += 1`; a contentless section is only logged to
the console — but its images were already downloaded to disk. -/
def processSections (site : CSite) (i : Nat) : Nat → List SectionEntry → SectsAcc
  | _, [] => ⟨[], [], [], 0⟩
  | j, s :: rest =>
    let r := extract_section_content site s.url s.title
    let acc := processSections site i (j + 1) rest
    if r.1 ≠ "" then
      ⟨{ title := s.title, url := s.url, filename := sectionFilename i j s.title,
         images := r.2.map (·.local_file) } :: acc.logs,
       r.2 ++ acc.included, r.2 ++ acc.downloaded, acc.written + 1⟩
    else ⟨acc.logs, acc.included, r.2 ++ acc.downloaded, acc.written⟩

/-- Accumulator of the outer article loop. -/
structure ArtsAcc where
  logs : List ArticleLog
  included : List ImgRecord
  downloaded : List ImgRecord
  written : Nat
deriving DecidableEq

/-- The article loop of `scrape_chapter_3_5` (articles enumerated from 1;
an `article_info` entry is appended for every article). -/
def processArticlesC (site : CSite) : Nat → List ArticleEntry → ArtsAcc
  | _, [] => ⟨[], [], [], 0⟩
  | i, a :: rest =>
    let sections := extract_sections_from_article site a.url
    let rs := processSections site i 1 sections
    let rr := processArticlesC site (i + 1) rest
    ⟨{ title := a.title, url := a.url, sections := rs.logs } :: rr.logs,
     rs.included ++ rr.included, rs.downloaded ++ rr.downloaded,
     rs.written + rr.written⟩

/-- `scrape_chapter_3_5(chapter_url)`. -/
def scrape_chapter_3_5 (site : CSite) (chapterUrl : String) : RunResult :=
  let articles := extract_articles_from_chapter site chapterUrl
  let r := processArticlesC site 1 articles
  { log := { chapter_title := "Chapter 3.5. Urban Water Use Efficiency and Conservation",
             chapter_url := chapterUrl,
             articles := r.logs,
             total_sections := r.written,
             images_downloaded := r.included.length },
    all_images := r.included,
    downloaded := r.downloaded }

/-! ## water-code-scraper.py : URL helpers -/

/-- Split a char list on a separator character. -/
def splitOnChar (sep : Char) : List Char → List (List Char)
  | [] => [[]]
  | c :: rest =>
    let r := splitOnChar sep rest
    if c = sep then [] :: r
    else
      match r with
      | [] => [[c]]
      | h :: t => (c :: h) :: t

/-- The query pairs of `parse_qs(urlparse(href).query)` for the plain query
strings this site uses (no percent-encoding in play): pieces without `=` or
with an empty value are dropped (`keep_blank_values=False`). -/
def queryParamsOf (href : String) : List (String × String) :=
  match href.toList.dropWhile (· ≠ '?') with
  | [] => []
  | _ :: q =>
    (splitOnChar '&' (q.takeWhile (· ≠ '#'))).filterMap (fun piece =>
      if piece.contains '=' then
        let k := piece.takeWhile (· ≠ '=')
        let v := (piece.dropWhile (· ≠ '=')).drop 1
        if v ≠ [] then some (k.asString, v.asString) else none
      else none)

/-- `params.get(name, [''])[0]`: first value of the parameter, or `""`. -/
def getQueryParam (href name : String) : String :=
  match (queryParamsOf href).find? (fun p => p.1 = name) with
  | some p => p.2
  | none => ""

/-- The fixed base of water-code-scraper.py. -/
def BASE_URL : String := "https://leginfo.legislature.ca.gov"

/-- `urljoin(BASE_URL, href)` in the cases the scraper meets. -/
def urljoinW (href : String) : String :=
  if strStartsWith href "http" then href
  else if strStartsWith href "/" then BASE_URL ++ href
  else BASE_URL ++ "/" ++ href

/-! ## water-code-scraper.py : tree discovery -/

/-- One discovered article (leaf) of `get_articles_for_chapter`. -/
structure ArticleInfo where
  url : String
  title : String
  code : String
  division : String
  part : String
  chapter : String
  article : String
  range : String
deriving DecidableEq

/-- One discovered chapter of `get_chapters_for_part`. -/
structure ChapterInfo where
  url : String
  title : String
  code : String
  division : String
  part : String
  chapter : String
  has_articles : Bool
  range : String
  articles : List ArticleInfo
deriving DecidableEq

/-- One discovered part of `get_division_structure`. -/
structure PartInfo where
  url : String
  title : String
  part : String
  code : String
  division : String
  has_chapters : Bool
  range : String
  chapters : List ChapterInfo
deriving DecidableEq

/-- External world of water-code-scraper.py: a fetch either yields the
parsed page or raises (`requests` error or `raise_for_status`), modelled
as `.error`. -/
structure WSite where
  fetch : String → Except String Html

/-- The range annotation `float:right` div of an anchor, `""` if absent. -/
def rangeTextOf (anchor : Html) : String :=
  match findInside (isDivStyleContaining "float:right") anchor with
  | none => ""
  | some d => getTextStrip d

/-- Python `if specific_parts and part.rstrip('.') not in specific_parts`:
the filter is active only when the list is truthy (present and non-empty). -/
def skipBySpecific (sp : Option (List String)) (part : String) : Bool :=
  match sp with
  | none => false
  | some l => !l.isEmpty && !(l.contains (rstripDots part))

/-- The per-anchor candidate logic of `get_division_structure`: a
`margin-left:20px` display div, "PART" in the uppercased text, not marked
`(Reserved)`, a non-empty `part` query parameter, and the optional
specific-parts filter. -/
def partOfAnchor (code division : String) (specificParts : Option (List String))
    (anchor : Html) : Option PartInfo :=
  let href := (getAttrA (attrsOf anchor) "href").getD ""
  match findInside (isDivStyleContaining "margin-left:20px") anchor with
  | none => none
  | some pd =>
    let linkText := getTextStrip pd
    if !containsSub (upperStr linkText) "PART" then none
    else if containsSub linkText "(Reserved)" then none
    else
      let part := getQueryParam href "part"
      if part = "" then none
      else if skipBySpecific specificParts part then none
      else some { url := urljoinW href, title := linkText, part := part, code := code,
                  division := division,
                  has_chapters := containsSub href "displayexpandedbranch",
                  range := rangeTextOf anchor, chapters := [] }

/-- The expanded-branch listing URL built by `get_division_structure`. -/
def divisionUrl (code division : String) : String :=
  BASE_URL ++ "/faces/codes_displayexpandedbranch.xhtml?tocCode=" ++ code ++
  "&division=" ++ division ++ ".&title=&part=&chapter=&article="

/-- `get_division_structure(code, division, specific_parts)`: fetch raises
through (uncaught), a missing content container yields `[]`. -/
def get_division_structure (site : WSite) (code division : String)
    (specificParts : Option (List String)) : Except String (List PartInfo) := do
  let soup ← site.fetch (divisionUrl code division)
  match findInside (isDivWithId "expandedbranchcodesid") soup with
  | none => .ok []
  | some cd =>
    .ok ((findAllInside isAnchorWithHref cd).filterMap
          (partOfAnchor code division specificParts))

/-- The per-anchor candidate logic of `get_chapters_for_part`: a
`margin-left:30px` div, not `(Reserved)`, "CHAPTER" in the uppercased text,
a non-empty `chapter` parameter; expandable chapters carry
`codes_displayexpandedbranch.xhtml` hrefs, direct-content chapters carry
`codes_displayText.xhtml` hrefs, anything else is dropped. -/
def chapterOfAnchor (code division : String) (anchor : Html) : Option ChapterInfo :=
  let href := (getAttrA (attrsOf anchor) "href").getD ""
  match findInside (isDivStyleContaining "margin-left:30px") anchor with
  | none => none
  | some cd =>
    let linkText := getTextStrip cd
    if containsSub linkText "(Reserved)" then none
    else if !containsSub (upperStr linkText) "CHAPTER" then none
    else
      let chapterNum := getQueryParam href "chapter"
      if chapterNum = "" then none
      else if containsSub href "codes_displayexpandedbranch.xhtml" then
        some { url := urljoinW href, title := linkText, code := code,
               division := division, part := getQueryParam href "part",
               chapter := chapterNum, has_articles := true,
               range := rangeTextOf anchor, articles := [] }
      else if containsSub href "codes_displayText.xhtml" then
        some { url := urljoinW href, title := linkText, code := code,
               division := division, part := getQueryParam href "part",
               chapter := chapterNum, has_articles := false,
               range := rangeTextOf anchor, articles := [] }
      else none

/-- `get_chapters_for_part(part_url, code, division, part)` (the `part`
argument is unused in the original as well). -/
def get_chapters_for_part (site : WSite) (partUrl code division _part : String) :
    Except String (List ChapterInfo) := do
  let soup ← site.fetch partUrl
  match findInside (isDivWithId "expandedbranchcodesid") soup with
  | none => .ok []
  | some cd =>
    .ok ((findAllInside isAnchorWithHref cd).filterMap (chapterOfAnchor code division))

/-- The per-anchor candidate logic of `get_articles_for_chapter`: a
`margin-left:40px` div and a `codes_displayText.xhtml` href whose text
contains "ARTICLE".  Note: no reserved/placeholder filter at this level. -/
def articleOfAnchor (code division : String) (anchor : Html) : Option ArticleInfo :=
  let href := (getAttrA (attrsOf anchor) "href").getD ""
  match findInside (isDivStyleContaining "margin-left:40px") anchor with
  | none => none
  | some ad =>
    let linkText := getTextStrip ad
    if containsSub href "codes_displayText.xhtml" &&
       containsSub (upperStr linkText) "ARTICLE" then
      some { url := urljoinW href, title := linkText, code := code,
             division := division, part := getQueryParam href "part",
             chapter := getQueryParam href "chapter",
             article := getQueryParam href "article",
             range := rangeTextOf anchor }
    else none

/-- `get_articles_for_chapter(chapter_url, code, division, part, chapter)`
(the last two arguments are unused in the original as well). -/
def get_articles_for_chapter (site : WSite)
    (chapterUrl code division _part _chapter : String) :
    Except String (List ArticleInfo) := do
  let soup ← site.fetch chapterUrl
  match findInside (isDivWithId "expandedbranchcodesid") soup with
  | none => .ok []
  | some cd =>
    .ok ((findAllInside isAnchorWithHref cd).filterMap (articleOfAnchor code division))

/-! ## water-code-scraper.py : legal-code HTML parsing -/

/-- An ASCII digit (the `\d` of the section-number pattern, restricted to
the ASCII digits the site uses). -/
def isAsciiDigit (c : Char) : Bool := '0' ≤ c && c ≤ '9'

mutual
/-- Recognizer for `^\d+(?:\.\d+)*$`, start state: at least one digit must
follow. -/
def secStart : List Char → Bool
  | [] => false
  | c :: rest => isAsciiDigit c && secAfterDigit rest
/-- Recognizer state after at least one digit of the current group. -/
def secAfterDigit : List Char → Bool
  | [] => true
  | '.' :: rest => secStart rest
  | c :: rest => isAsciiDigit c && secAfterDigit rest
end

/-- `re.match(r'^\d+(?:\.\d+)*$', s)` of `parse_legal_code_html`. -/
def matchesSectionNum (s : String) : Bool := secStart s.toList

/-- Consume the section number as a regex literal at the head of `s`: the
interpolated `re.sub(f'^{section_num}\\.?\\s*', ...)` treats each dot of
the number as the `.` wildcard. -/
def matchLooseNum : List Char → List Char → Option (List Char)
  | [], rest => some rest
  | _ :: _, [] => none
  | pc :: ps, c :: cs => if pc = '.' || pc = c then matchLooseNum ps cs else none

/-- Strip one leading repetition of the section number, an optional dot and
trailing whitespace (no-op when the head does not match). -/
def stripLeadingSecNum (secNum s : String) : String :=
  match matchLooseNum secNum.toList s.toList with
  | none => s
  | some rest =>
    let rest2 := match rest with
      | '.' :: r => r
      | r => r
    (rest2.dropWhile isPyWs).asString

/-- The first element (skipping intervening strings) after a header: the
`while next_elem and isinstance(next_elem, str)` walk. -/
def nextTagElem : HtmlList → Option Html
  | .nil => none
  | .cons (.text _) t => nextTagElem t
  | .cons (.elem n a cs) _ => some (.elem n a cs)

/-- The citation probe after a header: emitted when the following element
is `<i>` (or the degenerate `text`-tag case with an `<i>` container). -/
def headerCitation (containerTag : String) (rest : HtmlList) : List String :=
  match nextTagElem rest with
  | none => []
  | some e =>
    match tagOf e with
    | none => []
    | some n =>
      if n = "i" || (n = "text" && containerTag = "i") then
        let ct := getTextStrip e
        if ct ≠ "" then ["  " ++ ct] else []
      else []

mutual
/-- The header pass of `parse_legal_code_html` over a child list: every
h3/h4/h5 descendant emits its text, an optional adjoining citation, and a
blank line, in document order. -/
def headerScanL (containerTag : String) : HtmlList → List String
  | .nil => []
  | .cons h t =>
    (if isHeaderTag h then
       let ht := getTextStrip h
       if ht ≠ "" then ht :: (headerCitation containerTag t ++ [""]) else []
     else [])
    ++ headerScanInside h ++ headerScanL containerTag t
/-- Header pass entered into one node. -/
def headerScanInside : Html → List String
  | .text _ => []
  | .elem n _ cs => headerScanL n cs
end

/-- The p-tag classification loop of a section div: citation paragraphs
(`font-size:0.9em` style or an italic descendant, last one wins) versus
regular section text (`display:inline` or `margin:0` style), in order. -/
def collectPsAux (acc : List String × Option String) :
    List Html → List String × Option String
  | [] => acc
  | p :: rest =>
    let t := getTextStrip p
    if t ≠ "" then
      let style := (getAttrA (attrsOf p) "style").getD ""
      if containsSub style "font-size:0.9em" || (findInside (isTag "i") p).isSome then
        collectPsAux (acc.1, some t) rest
      else if containsSub style "display:inline" || containsSub style "margin:0" then
        collectPsAux (acc.1 ++ [t], acc.2) rest
      else collectPsAux acc rest
    else collectPsAux acc rest

/-- Classify all p-tags of one section div. -/
def collectPs (ps : List Html) : List String × Option String := collectPsAux ([], none) ps

/-- The contribution of one `align="left"` div in the section pass of
`parse_legal_code_html`: skipped when it holds a header; otherwise its h6
anchor text (trailing dots stripped) gates on the strict section-number
pattern, and an accepted section emits `"\n{num}."`, the joined section
texts prefixed by one space with the leading number repetition stripped,
and the citation prefixed by a newline. -/
def sectionDivLines (d : Html) : List String :=
  if (findInside isHeaderTag d).isSome then []
  else
    match findInside (isTag "h6") d with
    | none => []
    | some h6 =>
      match findInside (isTag "a") h6 with
      | none => []
      | some link =>
        let secNum := rstripDots (getTextStrip link)
        if !matchesSectionNum secNum then []
        else
          let pc := collectPs (findAllInside (isTag "p") d)
          ("\n" ++ secNum ++ ".") ::
          ((if pc.1 ≠ [] then
              [" " ++ stripLeadingSecNum secNum (String.intercalate " " pc.1)]
            else []) ++
           (match pc.2 with
            | some c => ["\n" ++ c]
            | none => []))

/-- The main-container lookup, in the fixed priority order. -/
def findMainDiv (soup : Html) : Option Html :=
  match findInside (isDivWithId "manylawsections") soup with
  | some d => some d
  | none =>
    match findInside (isDivWithId "display_code_many_law_sections") soup with
    | some d => some d
    | none => findInside (isTagWithClass "div" "displaycodeleftmargin") soup

/-- `parse_legal_code_html(soup)`. -/
def parse_legal_code_html (soup : Html) : String :=
  match findMainDiv soup with
  | none => ""
  | some md =>
    String.intercalate "\n"
      (headerScanInside md ++
       ((findAllInside (isTagWithAttr "div" "align" "left") md).map sectionDivLines).flatten)

/-! ## water-code-scraper.py : driver -/

/-- `scrape_content(url)`: fetch (raises through) then parse. -/
def scrape_content (site : WSite) (url : String) : Except String String := do
  let soup ← site.fetch url
  .ok (parse_legal_code_html soup)

/-- The leaf-scraping try-block of `scrape_code_section`: any exception is
caught and logged; returns 1 iff content was non-empty and the file was
written (`successful_downloads` increment). -/
def processLeafW (site : WSite) (url : String) : Nat :=
  match scrape_content site url with
  | .error _ => 0
  | .ok content => if content ≠ "" then 1 else 0

/-- The article loop: each article counts toward `total_items` and its
leaf scrape is error-isolated. -/
def processArticlesW (site : WSite) : List ArticleInfo → Nat × Nat
  | [] => (0, 0)
  | a :: rest =>
    let r := processArticlesW site rest
    (processLeafW site a.url + r.1, r.2 + 1)

/-- Processing of one chapter: an expandable chapter is expanded first
(`get_articles_for_chapter` outside any try — its fetch error propagates),
a direct-content chapter is scraped as one error-isolated leaf. -/
def processChapterW (site : WSite) (ch : ChapterInfo) : Except String (Nat × Nat) :=
  if ch.has_articles then do
    let arts ← get_articles_for_chapter site ch.url ch.code ch.division ch.part ch.chapter
    .ok (processArticlesW site arts)
  else .ok (processLeafW site ch.url, 1)

/-- The chapter loop. -/
def processChaptersW (site : WSite) : List ChapterInfo → Except String (Nat × Nat)
  | [] => .ok (0, 0)
  | c :: rest => do
    let r ← processChapterW site c
    let rs ← processChaptersW site rest
    .ok (r.1 + rs.1, r.2 + rs.2)

/-- Processing of one part: an expandable part is expanded first
(`get_chapters_for_part` outside any try — its fetch error propagates and
aborts the whole code-section run), a chapterless part is one
error-isolated leaf. -/
def processPartW (site : WSite) (p : PartInfo) : Except String (Nat × Nat) :=
  if p.has_chapters then do
    let chs ← get_chapters_for_part site p.url p.code p.division p.part
    if chs.isEmpty then .ok (0, 0) else processChaptersW site chs
  else .ok (processLeafW site p.url, 1)

/-- The part loop. -/
def processPartsW (site : WSite) : List PartInfo → Except String (Nat × Nat)
  | [] => .ok (0, 0)
  | p :: rest => do
    let r ← processPartW site p
    let rs ← processPartsW site rest
    .ok (r.1 + rs.1, r.2 + rs.2)

/-- One entry of `CODE_SECTIONS_TO_SCRAPE`. -/
structure CodeConfig where
  code : String
  code_name : String
  division : String
  parts : Option (List String)

/-- `scrape_code_section(config)`: returns
`(successful_downloads, total_items)`; an uncaught exception anywhere in
discovery aborts the run (`.error`). -/
def scrape_code_section (site : WSite) (config : CodeConfig) :
    Except String (Nat × Nat) := do
  let parts ← get_division_structure site config.code config.division config.parts
  if parts.isEmpty then .ok (0, 0)
  else processPartsW site parts

/-! ## Helper constructions and predicates for the verification -/

deriving instance DecidableEq for Except

/-- Build an `HtmlList` from a `List Html` (concrete test documents). -/
def hl : List Html → HtmlList
  | [] => .nil
  | h :: t => .cons h (hl t)

mutual
/-- No element with tag `tg` occurs in the tree (the node itself included). -/
def noTagN (tg : String) : Html → Bool
  | .text _ => true
  | .elem n _ cs => (n ≠ tg) && noTagL tg cs
def noTagL (tg : String) : HtmlList → Bool
  | .nil => true
  | .cons h t => noTagN tg h && noTagL tg t
end

/-- The tree holds no subscript or superscript run. -/
def noSubSupN (t : Html) : Bool := noTagN "sub" t && noTagN "sup" t

/-- A child list holds no subscript or superscript run. -/
def noSubSupL (l : HtmlList) : Bool := noTagL "sub" l && noTagL "sup" l

mutual
theorem replaceRuns_id (tg mark : String) :
    ∀ t : Html, noTagN tg t = true → replaceRuns tg mark t = t
  | .text _, _ => rfl
  | .elem n a cs, h => by
    simp only [noTagN, Bool.and_eq_true, decide_eq_true_eq] at h
    rw [replaceRuns, if_neg h.1, replaceRunsL_id tg mark cs h.2]
theorem replaceRunsL_id (tg mark : String) :
    ∀ l : HtmlList, noTagL tg l = true → replaceRunsL tg mark l = l
  | .nil, _ => rfl
  | .cons a b, h => by
    simp only [noTagL, Bool.and_eq_true] at h
    rw [replaceRunsL, replaceRuns_id tg mark a h.1, replaceRunsL_id tg mark b h.2]
end

mutual
theorem replaceRuns_removes (tg mark : String) :
    ∀ t : Html, noTagN tg (replaceRuns tg mark t) = true
  | .text _ => rfl
  | .elem n a cs => by
    by_cases hn : n = tg
    · rw [replaceRuns, if_pos hn]; rfl
    · rw [replaceRuns, if_neg hn]
      simp only [noTagN, Bool.and_eq_true, decide_eq_true_eq]
      exact ⟨hn, replaceRunsL_removes tg mark cs⟩
theorem replaceRunsL_removes (tg mark : String) :
    ∀ l : HtmlList, noTagL tg (replaceRunsL tg mark l) = true
  | .nil => rfl
  | .cons a b => by
    simp only [replaceRunsL, noTagL, Bool.and_eq_true]
    exact ⟨replaceRuns_removes tg mark a, replaceRunsL_removes tg mark b⟩
end

mutual
theorem replaceRuns_keeps (tg tg2 mark : String) :
    ∀ t : Html, noTagN tg2 t = true → noTagN tg2 (replaceRuns tg mark t) = true
  | .text _, _ => rfl
  | .elem n a cs, h => by
    simp only [noTagN, Bool.and_eq_true, decide_eq_true_eq] at h
    by_cases hn : n = tg
    · rw [replaceRuns, if_pos hn]; rfl
    · rw [replaceRuns, if_neg hn]
      simp only [noTagN, Bool.and_eq_true, decide_eq_true_eq]
      exact ⟨h.1, replaceRunsL_keeps tg tg2 mark cs h.2⟩
theorem replaceRunsL_keeps (tg tg2 mark : String) :
    ∀ l : HtmlList, noTagL tg2 l = true → noTagL tg2 (replaceRunsL tg mark l) = true
  | .nil, _ => rfl
  | .cons a b, h => by
    simp only [noTagL, Bool.and_eq_true] at h
    simp only [replaceRunsL, noTagL, Bool.and_eq_true]
    exact ⟨replaceRuns_keeps tg tg2 mark a h.1, replaceRunsL_keeps tg tg2 mark b h.2⟩
end

/-- A sub/sup-free tree is untouched by `convert_subscripts_to_text`. -/
theorem convert_id_of_noSubSup (t : Html) (h : noSubSupN t = true) :
    convert_subscripts_to_text t = t := by
  cases t with
  | text s => rfl
  | elem n a cs =>
    simp only [noSubSupN, Bool.and_eq_true, noTagN, decide_eq_true_eq] at h
    rw [convert_subscripts_to_text, replaceRunsL_id "sub" "_" cs h.1.2,
        replaceRunsL_id "sup" "^" cs h.2.2]

/-- C7: applying `convert_subscripts_to_text` to a document whose sub/sup
runs have already been rewritten into plain text produces no further change;
the rewrite is idempotent (its output contains no `sub`/`sup` run, so a
second application finds nothing to replace). -/
theorem C7_subsup_rewrite_idempotent (t : Html) :
    convert_subscripts_to_text (convert_subscripts_to_text t) =
    convert_subscripts_to_text t := by
  cases t with
  | text s => rfl
  | elem n a cs =>
    rw [convert_subscripts_to_text, convert_subscripts_to_text]
    have h1 : noTagL "sub" (replaceRunsL "sub" "_" cs) = true :=
      replaceRunsL_removes "sub" "_" cs
    have h2 : noTagL "sub" (replaceRunsL "sup" "^" (replaceRunsL "sub" "_" cs)) = true :=
      replaceRunsL_keeps "sup" "sub" "^" _ h1
    have h3 : noTagL "sup" (replaceRunsL "sup" "^" (replaceRunsL "sub" "_" cs)) = true :=
      replaceRunsL_removes "sup" "^" _
    rw [replaceRunsL_id "sub" "_" _ h2, replaceRunsL_id "sup" "^" _ h3]

mutual
theorem convertBlocksN_id : ∀ t : Html, noSubSupN t = true → convertBlocksN t = t
  | .text _, _ => rfl
  | .elem n a cs, h => by
    have hcs : noSubSupL cs = true := by
      simp only [noSubSupN, noTagN, Bool.and_eq_true, decide_eq_true_eq] at h
      simp only [noSubSupL, Bool.and_eq_true]
      exact ⟨h.1.2, h.2.2⟩
    rw [convertBlocksN]
    split
    · split
      · rw [convertBlocksL_id cs hcs]
      · exact convert_id_of_noSubSup _ h
    · rw [convertBlocksL_id cs hcs]
theorem convertBlocksL_id : ∀ l : HtmlList, noSubSupL l = true → convertBlocksL l = l
  | .nil, _ => rfl
  | .cons a b, h => by
    have hp : noSubSupN a = true ∧ noSubSupL b = true := by
      simp only [noSubSupL, noTagL, Bool.and_eq_true] at h
      simp only [noSubSupN, noSubSupL, Bool.and_eq_true]
      exact ⟨⟨h.1.1, h.2.1⟩, ⟨h.1.2, h.2.2⟩⟩
    rw [convertBlocksL, convertBlocksN_id a hp.1, convertBlocksL_id b hp.2]
end

mutual
theorem anApplyN_fst : ∀ t : Html, noSubSupN t = true → (anApplyN t).1 = t
  | .text _, _ => rfl
  | .elem n a cs, h => by
    have hcs : noSubSupL cs = true := by
      simp only [noSubSupN, noTagN, Bool.and_eq_true, decide_eq_true_eq] at h
      simp only [noSubSupL, Bool.and_eq_true]
      exact ⟨h.1.2, h.2.2⟩
    rw [anApplyN]
    split
    · simp only
      rw [convertBlocksL_id cs hcs]
    · simp only
      rw [anApplyL_fst cs hcs]
theorem anApplyL_fst : ∀ l : HtmlList, noSubSupL l = true → (anApplyL l).1 = l
  | .nil, _ => rfl
  | .cons a b, h => by
    have hp : noSubSupN a = true ∧ noSubSupL b = true := by
      simp only [noSubSupL, noTagL, Bool.and_eq_true] at h
      simp only [noSubSupN, noSubSupL, Bool.and_eq_true]
      exact ⟨⟨h.1.1, h.2.1⟩, ⟨h.1.2, h.2.2⟩⟩
    rw [anApplyL]
    split
    · simp only
      rw [anApplyN_fst a hp.1]
    · simp only
      rw [anApplyN_fst a hp.1, anApplyL_fst b hp.2]
end

/-- Concrete ccr leaf document: one `co_document` container holding one
content block whose text carries a subscript run (H2O). -/
def subDocExample : Html :=
  .elem "[document]" []
    (hl [ .elem "div" [("id","co_document")]
           (hl [ .elem "div" [("class","co_contentBlock co_paragraph")]
                  (hl [.text "H", .elem "sub" [] (hl [.text "2"]), .text "O"]) ]) ])

/-- Concrete ccr leaf document with no sub/sup runs. -/
def noSubDocExample : Html :=
  .elem "[document]" []
    (hl [ .elem "div" [("id","co_document")]
           (hl [ .elem "div" [("class","co_contentBlock co_paragraph")]
                  (hl [.text "Plain text."]) ]) ])

/-- C2 (amended): the tree mutation performed by one
`extract_section_content` call beyond the image-to-placeholder substitution
is exactly the in-place subscript/superscript rewriting of the processed
content blocks; on a document with no sub/sup runs the normalizer performs
no mutation at all (and, being a total function, it always returns a
result). -/
theorem C2_normalizer_frame (t : Html) (h : noSubSupN t = true) :
    applyNormalize t = t := by
  cases t with
  | text s => rfl
  | elem n a cs =>
    have hcs : noSubSupL cs = true := by
      simp only [noSubSupN, noTagN, Bool.and_eq_true, decide_eq_true_eq] at h
      simp only [noSubSupL, Bool.and_eq_true]
      exact ⟨h.1.2, h.2.2⟩
    rw [applyNormalize, anApplyL_fst cs hcs]

/-- C2 counterexample: on `subDocExample` the formula extractor substitutes
nothing (no images), yet normalization rewrites the subscript run in place,
so the source tree is mutated beyond the image substitution — refuting the
claim that every other node (including subscript and superscript runs) is
left unchanged. -/
theorem C2_counterexample :
    process_mathematical_images (fun _ => false) "Title" subDocExample =
      (subDocExample, []) ∧
    applyNormalize subDocExample ≠ subDocExample ∧
    noTagN "sub" subDocExample = false ∧
    noTagN "sub" (applyNormalize subDocExample) = true :=
  ⟨by decide, by decide, by decide, by decide⟩

/-- C2 witness: the amended frame theorem applied to a concrete sub/sup-free
document. -/
theorem C2_witness :
    noSubSupN noSubDocExample = true ∧
    applyNormalize noSubDocExample = noSubDocExample :=
  ⟨by decide, C2_normalizer_frame noSubDocExample (by decide)⟩

mutual
/-- Every `img` node in the tree (given its parent's class tokens) fails the
selection test of `process_mathematical_images`. -/
def allImgsUnselectedN (parentClasses : List String) : Html → Bool
  | .text _ => true
  | .elem n a cs =>
    (if n = "img" then !imgSelected parentClasses a else true)
    && allImgsUnselectedL (classesA a) cs
def allImgsUnselectedL (parentClasses : List String) : HtmlList → Bool
  | .nil => true
  | .cons h t => allImgsUnselectedN parentClasses h && allImgsUnselectedL parentClasses t
end

/-- Every `img` node of the document fails the selection test. -/
def allImgsUnselected : Html → Bool
  | .text _ => true
  | .elem _ a cs => allImgsUnselectedL (classesA a) cs

mutual
theorem pmiNode_id (dl : String → Bool) (ttl : String) (pc : List String) :
    ∀ t : Html, allImgsUnselectedN pc t = true → pmiNode dl ttl pc t = (t, [])
  | .text _, _ => rfl
  | .elem n a cs, h => by
    have h' := h
    simp only [allImgsUnselectedN, Bool.and_eq_true] at h'
    have hsel : (n = "img" && imgSelected pc a) = false := by
      by_cases hn : n = "img"
      · have := h'.1
        rw [if_pos hn] at this
        simp only [Bool.not_eq_true'] at this
        simp [hn, this]
      · simp [hn]
    rw [pmiNode, if_neg (by simp [hsel])]
    rw [pmiL_id dl ttl (classesA a) cs h'.2]
theorem pmiL_id (dl : String → Bool) (ttl : String) (pc : List String) :
    ∀ l : HtmlList, allImgsUnselectedL pc l = true → pmiL dl ttl pc l = (l, [])
  | .nil, _ => rfl
  | .cons a b, h => by
    simp only [allImgsUnselectedL, Bool.and_eq_true] at h
    rw [pmiL, pmiNode_id dl ttl pc a h.1, pmiL_id dl ttl pc b h.2]
    simp
end

/-- The qualification rule, written as the claim states it (containment
checked on the lowercased descriptive text, which is how the code matches),
together with the truthy-source requirement of the code path. -/
def specImageSelected (parentClasses : List String)
    (attrs : List (String × String)) : Prop :=
  (∃ s, getAttrA attrs "src" = some s ∧ s ≠ "") ∧
  ((∃ cls ∈ parentClasses, containsSub cls "figure" = true) ∨
   containsSub (lowerStr ((getAttrA attrs "alt").getD "")) "formula" = true ∨
   containsSub (lowerStr ((getAttrA attrs "alt").getD "")) "equation" = true ∨
   containsSub (lowerStr ((getAttrA attrs "alt").getD "")) "sum" = true ∨
   containsSub (lowerStr ((getAttrA attrs "alt").getD "")) "equals" = true ∨
   containsSub (lowerStr ((getAttrA attrs "alt").getD "")) "water loss" = true)

/-- C3 (amended): an image is selected for formula extraction iff it has a
non-empty source attribute and (its immediate containing element carries a
"figure"-tagged class, or its lowercased alt text contains "formula" or
"equation" or one of the domain words "sum", "equals", "water loss"); and a
document all of whose images are non-selected is returned untouched with an
empty extraction output. -/
theorem C3_image_selection :
    (∀ (pc : List String) (attrs : List (String × String)),
       imgSelected pc attrs = true ↔ specImageSelected pc attrs) ∧
    (∀ (dl : String → Bool) (ttl : String) (t : Html),
       allImgsUnselected t = true →
       process_mathematical_images dl ttl t = (t, [])) := by
  constructor
  · intro pc attrs
    cases hsrc : getAttrA attrs "src" with
    | none => simp [imgSelected, hsrc, specImageSelected]
    | some s =>
      simp [imgSelected, hsrc, specImageSelected, imgQualifies, List.any_eq_true,
            or_assoc]
  · intro dl ttl t h
    cases t with
    | text s => rfl
    | elem n a cs =>
      rw [allImgsUnselected] at h
      rw [process_mathematical_images, pmiL_id dl ttl (classesA a) cs h]

/-- Concrete image with an empty (but present) source attribute and
qualifying alt text. -/
def c3Img : Html := .elem "img" [("src", ""), ("alt", "formula")] .nil

/-- Document holding `c3Img` inside a figure-tagged container. -/
def c3Doc : Html :=
  .elem "[document]" []
    (hl [.elem "div" [("class", "co_figureBlock")] (hl [c3Img])])

/-- C3 counterexample: this image has a source attribute, sits in a
figure-tagged container and its alt text contains "formula", yet it is not
selected and the document passes through extraction untouched with empty
output — refuting the claimed "if and only if" for images that merely have
a (possibly empty) source attribute. -/
theorem C3_counterexample :
    (getAttrA (attrsOf c3Img) "src").isSome = true ∧
    containsSub (lowerStr ((getAttrA (attrsOf c3Img) "alt").getD "")) "formula" = true ∧
    (classesA (attrsOf (.elem "div" [("class", "co_figureBlock")] (hl [c3Img])))).any
      (fun cls => containsSub cls "figure") = true ∧
    imgSelected ["co_figureBlock"] (attrsOf c3Img) = false ∧
    process_mathematical_images (fun _ => true) "T" c3Doc = (c3Doc, []) :=
  ⟨by decide, by decide, by decide, by decide, by decide⟩

/-- C3 witness: the amended theorem applied at the concrete document. -/
theorem C3_witness :
    allImgsUnselected c3Doc = true ∧
    process_mathematical_images (fun _ => true) "T" c3Doc = (c3Doc, []) :=
  ⟨by decide, C3_image_selection.2 (fun _ => true) "T" c3Doc (by decide)⟩

/-- Concrete ccr leaf title element. -/
def c5h1 : Html := .elem "h1" [] (hl [.text "T23 Sec"])

/-- Concrete ccr citation list with one line. -/
def c5ul : Html :=
  .elem "ul" [("id", "co_docHeaderCitation")]
    (hl [.elem "li" [] (hl [.text "23 CA ADC"])])

/-- Concrete ccr header-title container. -/
def c5titleDiv : Html := .elem "div" [("id", "co_docHeaderTitle")] (hl [c5h1, c5ul])

/-- Concrete ccr leaf document with title and citation. -/
def c5doc : Html := .elem "[document]" [] (hl [c5titleDiv])

/-- C5 (amended): for a leaf document with a title element and one adjoining
citation line, the emitted heading block is: the title text, an `=`
underline of the title's length, a blank line, the citation text, and a
final blank separator line (the code emits a blank line between the
underline and the citation as well). -/
theorem C5_heading_block (doc ts h ul : Html) (c : String)
    (hts : findInside (isDivWithId "co_docHeaderTitle") doc = some ts)
    (hh : findInside (isTag "h1") ts = some h)
    (hul : findInside (isTagWithId "ul" "co_docHeaderCitation") ts = some ul)
    (hc : ((findAllInside (isTag "li") ul).map getTextStrip).filter (· ≠ "") = [c]) :
    headingLines doc =
      [getTextStrip h, (List.replicate (getTextStrip h).length '=').asString, "",
       c, ""] := by
  simp only [headingLines, hts, titleLines, hh, citationLines, hul, hc]
  rfl

/-- C5 counterexample: on a concrete document the heading block is five
lines — title, underline, blank, citation, blank — not the four lines
(title, underline, citation, blank) the claim describes. -/
theorem C5_counterexample :
    headingLines c5doc = ["T23 Sec", "=======", "", "23 CA ADC", ""] ∧
    headingLines c5doc ≠ ["T23 Sec", "=======", "23 CA ADC", ""] :=
  ⟨by decide, by decide⟩

/-- C5 witness: the amended heading-block theorem at the concrete document. -/
theorem C5_witness : headingLines c5doc = ["T23 Sec", "=======", "", "23 CA ADC", ""] :=
  C5_heading_block c5doc c5titleDiv c5h1 c5ul "23 CA ADC"
    (by decide) (by decide) (by decide) (by decide)

/-- A document holding a single image inside a single container element
(the shape used to state the placeholder contract per image). -/
def c8Page (pa ia : List (String × String)) : Html :=
  .elem "[document]" [] (hl [.elem "div" pa (hl [.elem "img" ia .nil])])

/-- C8 (amended): a qualifying image with a truthy source whose download
succeeds is replaced in place by a text node of exactly the form
`"\n[IMAGE: <local filename> - <descriptive text>]\n"` (newline-framed),
where the descriptive text is the value of the `alt` attribute whenever the
attribute is present — even when it is the empty string — and
`"Mathematical formula"` only when the attribute is absent; the record
carries the alt value (defaulting to `""`). -/
theorem C8_placeholder_form (pa ia : List (String × String)) (dl : String → Bool)
    (ttl src : String)
    (hsrc : getAttrA ia "src" = some src) (hne : src ≠ "")
    (hq : imgQualifies (classesA pa) (lowerStr ((getAttrA ia "alt").getD "")) = true)
    (hdl : dl (resolveImgUrl src) = true) :
    process_mathematical_images dl ttl (c8Page pa ia) =
      (.elem "[document]" []
        (hl [.elem "div" pa
          (hl [.text ("\n[IMAGE: " ++ localImageFilename (resolveImgUrl src) ttl ++
                      " - " ++ ((getAttrA ia "alt").getD "Mathematical formula") ++
                      "]\n")])]),
       [⟨resolveImgUrl src, localImageFilename (resolveImgUrl src) ttl,
         (getAttrA ia "alt").getD "", "Mathematical formula from " ++ ttl⟩]) := by
  have hsel : imgSelected (classesA pa) ia = true := by
    simp only [imgSelected, hsrc]
    simp [hne, hq]
  simp only [c8Page, process_mathematical_images, hl, pmiL, pmiNode, hsel, hsrc,
             download_image, hdl, imgPlaceholder, imgRecordOf]
  simp [hdl]

/-- Concrete page: qualifying image (figure-tagged parent) whose `alt`
attribute is present but empty. -/
def c8AltEmptyPage : Html :=
  .elem "[document]" []
    (hl [.elem "div" [("class", "co_figureBlock")]
      (hl [.elem "img" [("src", "/p/q.png"), ("alt", "")] .nil])])

/-- C8 counterexample: the replacement text node is newline-framed and, for
an image whose alt attribute is the empty string (no descriptive text), the
descriptive slot is empty rather than "Mathematical formula" — so the
placeholder does not have exactly the claimed form
`[IMAGE: <local filename> - <descriptive text>]`. -/
theorem C8_counterexample :
    process_mathematical_images (fun _ => true) "S" c8AltEmptyPage =
      (.elem "[document]" []
        (hl [.elem "div" [("class", "co_figureBlock")]
          (hl [.text "\n[IMAGE: S_q.png - ]\n"])]),
       [⟨"https://govt.westlaw.com/p/q.png", "S_q.png", "",
         "Mathematical formula from S"⟩]) ∧
    "\n[IMAGE: S_q.png - ]\n" ≠ "[IMAGE: S_q.png - Mathematical formula]" ∧
    "\n[IMAGE: S_q.png - ]\n" ≠ "[IMAGE: S_q.png - ]" :=
  ⟨by decide, by decide, by decide⟩

/-- C8 witness: the amended placeholder theorem applied to a concrete image
with no alt attribute (default descriptive text). -/
theorem C8_witness :
    process_mathematical_images (fun _ => true) "S"
      (c8Page [("class", "co_figureBlock")] [("src", "/p/q.png")]) =
      (.elem "[document]" []
        (hl [.elem "div" [("class", "co_figureBlock")]
          (hl [.text "\n[IMAGE: S_q.png - Mathematical formula]\n"])]),
       [⟨"https://govt.westlaw.com/p/q.png", "S_q.png", "",
         "Mathematical formula from S"⟩]) :=
  (C8_placeholder_form [("class", "co_figureBlock")] [("src", "/p/q.png")]
    (fun _ => true) "S" "/p/q.png" (by decide) (by decide) (by decide)
    (by decide)).trans (by decide)

/-- The lines of an emitted text body (split on newline). -/
def linesOf (s : String) : List String := (splitOnChar '\n' s.toList).map List.asString

/-- Concrete flat-schema section anchor with text "1011.5.". -/
def c4link : Html := .elem "a" [("href", "x")] (hl [.text "1011.5."])

/-- Concrete h6 wrapper of the section anchor. -/
def c4h6 : Html := .elem "h6" [] (hl [c4link])

/-- Concrete flat-schema section div: the anchor, one plain paragraph
repeating the section number, one italic citation paragraph. -/
def c4div : Html :=
  .elem "div" [("align", "left")]
    (hl [ c4h6,
          .elem "p" [("style", "margin:0")] (hl [.text "1011.5. Some text."]),
          .elem "p" [("style", "font-size:0.9em")]
            (hl [.elem "i" [] (hl [.text "CITE"])]) ])

/-- Concrete flat-schema page around `c4div`. -/
def c4page : Html :=
  .elem "[document]" []
    (hl [.elem "div" [("id", "manylawsections")] (hl [c4div])])

/-- C4 (amended): in the flat-schema path a section div (holding no header,
with an h6 anchor) contributes output iff its anchor text with trailing
dots stripped matches the strict `digits('.'digits)*` pattern; and the
two-paragraph scenario emits a blank separator, `1011.5.` on its own line,
the plain paragraph text with the leading number repetition stripped and
indented by one space, a blank line, then the citation text. -/
theorem C4_flat_schema :
    (∀ (d h6 link : Html),
       findInside isHeaderTag d = none →
       findInside (isTag "h6") d = some h6 →
       findInside (isTag "a") h6 = some link →
       (sectionDivLines d ≠ [] ↔
        matchesSectionNum (rstripDots (getTextStrip link)) = true)) ∧
    linesOf (parse_legal_code_html c4page) =
      ["", "1011.5.", " Some text.", "", "CITE"] := by
  constructor
  · intro d h6 link hhdr hh6 ha
    simp only [sectionDivLines, hhdr, hh6, ha, Option.isSome_none, Bool.false_eq_true,
               if_false]
    cases hm : matchesSectionNum (rstripDots (getTextStrip link)) <;> simp [hm]
  · decide

/-- C4 counterexample: in the end-to-end scenario the line that follows the
section number is `" Some text."` — the stripped paragraph text indented by
one space — and the exact stripped text `"Some text."` appears on no line,
contrary to the claim's description of the emitted line. -/
theorem C4_counterexample :
    linesOf (parse_legal_code_html c4page) =
      ["", "1011.5.", " Some text.", "", "CITE"] ∧
    " Some text." ≠ "Some text." ∧
    ¬ ("Some text." ∈ linesOf (parse_legal_code_html c4page)) :=
  ⟨by decide, by decide, by decide⟩

/-- C4 witness: the acceptance equivalence applied at the concrete section
div (whose anchor text "1011.5." is accepted). -/
theorem C4_witness :
    sectionDivLines c4div ≠ [] ↔
    matchesSectionNum (rstripDots (getTextStrip c4link)) = true :=
  C4_flat_schema.1 c4div c4h6 c4link (by decide) (by decide) (by decide)

theorem partOfAnchor_not_reserved (code division : String) (sp : Option (List String))
    (a : Html) (p : PartInfo) (h : partOfAnchor code division sp a = some p) :
    containsSub p.title "(Reserved)" = false := by
  cases hfd : findInside (isDivStyleContaining "margin-left:20px") a with
  | none => simp only [partOfAnchor, hfd] at h; exact Option.noConfusion h
  | some pd =>
    simp only [partOfAnchor, hfd] at h
    split_ifs at h with h1 h2 h3 h4 <;> cases h
    simpa using h2

theorem chapterOfAnchor_not_reserved (code division : String)
    (a : Html) (c : ChapterInfo) (h : chapterOfAnchor code division a = some c) :
    containsSub c.title "(Reserved)" = false := by
  cases hfd : findInside (isDivStyleContaining "margin-left:30px") a with
  | none => simp only [chapterOfAnchor, hfd] at h; exact Option.noConfusion h
  | some cd =>
    simp only [chapterOfAnchor, hfd] at h
    split_ifs at h with h1 h2 h3 h4 h5 <;> cases h
    all_goals simpa using h1

theorem exceptBind_ok {e a b : Type} (x : a) (f : a → Except e b) :
    (Except.ok x >>= f) = f x := rfl

theorem exceptBind_err {e a b : Type} (err : e) (f : a → Except e b) :
    ((Except.error err : Except e a) >>= f) = Except.error err := rfl

/-- C6 (amended): at the parts and chapters levels of tree discovery a
candidate entry textually flagged `(Reserved)` is rejected and never
appears among the discovered children; at the articles level no such filter
exists and a reserved-flagged entry with a content href is included. -/
theorem C6_reserved_filtering :
    (∀ (site : WSite) (code division : String) (sp : Option (List String))
       (parts : List PartInfo),
       get_division_structure site code division sp = .ok parts →
       ∀ p ∈ parts, containsSub p.title "(Reserved)" = false) ∧
    (∀ (site : WSite) (url code division pt : String) (chs : List ChapterInfo),
       get_chapters_for_part site url code division pt = .ok chs →
       ∀ c ∈ chs, containsSub c.title "(Reserved)" = false) := by
  constructor
  · intro site code division sp parts h p hp
    unfold get_division_structure at h
    cases hf : site.fetch (divisionUrl code division) with
    | error e => rw [hf, exceptBind_err] at h; exact Except.noConfusion h
    | ok soup =>
      rw [hf, exceptBind_ok] at h
      cases hfd : findInside (isDivWithId "expandedbranchcodesid") soup with
      | none =>
        rw [hfd] at h
        simp only [Except.ok.injEq] at h
        subst h
        cases hp
      | some cd =>
        rw [hfd] at h
        simp only [Except.ok.injEq] at h
        subst h
        obtain ⟨a, _, hpa⟩ := List.mem_filterMap.mp hp
        exact partOfAnchor_not_reserved code division sp a p hpa
  · intro site url code division pt chs h c hc
    unfold get_chapters_for_part at h
    cases hf : site.fetch url with
    | error e => rw [hf, exceptBind_err] at h; exact Except.noConfusion h
    | ok soup =>
      rw [hf, exceptBind_ok] at h
      cases hfd : findInside (isDivWithId "expandedbranchcodesid") soup with
      | none =>
        rw [hfd] at h
        simp only [Except.ok.injEq] at h
        subst h
        cases hc
      | some cd =>
        rw [hfd] at h
        simp only [Except.ok.injEq] at h
        subst h
        obtain ⟨a, _, hca⟩ := List.mem_filterMap.mp hc
        exact chapterOfAnchor_not_reserved code division a c hca

/-- Href of a reserved article entry that still carries a content link. -/
def c6ArtHref : String :=
  "/faces/codes_displayText.xhtml?tocCode=WAT&division=6.&part=1.&chapter=2.&article=2."

/-- Chapter listing page with one reserved-flagged article anchor. -/
def c6ChapPage : Html :=
  .elem "[document]" []
    (hl [.elem "div" [("id", "expandedbranchcodesid")]
      (hl [.elem "a" [("href", c6ArtHref)]
        (hl [.elem "div" [("style", "margin-left:40px")]
          (hl [.text "ARTICLE 2. Powers (Reserved)"])])])])

/-- Site serving the reserved-article chapter page. -/
def c6Site : WSite := ⟨fun _ => .ok c6ChapPage⟩

/-- C6 counterexample: at the articles level a candidate entry textually
flagged `(Reserved)` is NOT rejected — it appears among the discovered
children — refuting the claim that every level filters reserved entries. -/
theorem C6_counterexample :
    get_articles_for_chapter c6Site "u" "WAT" "6" "1." "2." =
      .ok [{ url := urljoinW c6ArtHref, title := "ARTICLE 2. Powers (Reserved)",
             code := "WAT", division := "6", part := "1.", chapter := "2.",
             article := "2.", range := "" }] ∧
    containsSub "ARTICLE 2. Powers (Reserved)" "(Reserved)" = true :=
  ⟨by decide, by decide⟩

/-- Division page with one reserved part anchor and one regular part anchor. -/
def c6DivPage : Html :=
  .elem "[document]" []
    (hl [.elem "div" [("id", "expandedbranchcodesid")]
      (hl [ .elem "a" [("href", "/faces/codes_displayexpandedbranch.xhtml?tocCode=WAT&division=6.&part=3.")]
              (hl [.elem "div" [("style", "margin-left:20px")]
                (hl [.text "PART 3. (Reserved)"])]),
            .elem "a" [("href", "/faces/codes_displayexpandedbranch.xhtml?tocCode=WAT&division=6.&part=1.")]
              (hl [.elem "div" [("style", "margin-left:20px")]
                (hl [.text "PART 1. GENERAL"])]) ])])

/-- Site serving the mixed division page. -/
def c6DivSite : WSite := ⟨fun _ => .ok c6DivPage⟩

/-- The single part that discovery keeps from `c6DivPage`. -/
def c6KeptPart : PartInfo :=
  { url := urljoinW "/faces/codes_displayexpandedbranch.xhtml?tocCode=WAT&division=6.&part=1.",
    title := "PART 1. GENERAL", part := "1.", code := "WAT", division := "6",
    has_chapters := true, range := "", chapters := [] }

/-- C6 witness: the parts-level half of the amended theorem applied to the
concrete division page (the reserved part was filtered out, and the kept
part is not reserved-flagged). -/
theorem C6_witness : containsSub c6KeptPart.title "(Reserved)" = false :=
  C6_reserved_filtering.1 c6DivSite "WAT" "6" none [c6KeptPart] (by decide)
    c6KeptPart (by simp)

theorem processChaptersW_ok (site : WSite) :
    ∀ chs : List ChapterInfo,
      (∀ c ∈ chs, c.has_articles = true →
        ∃ arts, get_articles_for_chapter site c.url c.code c.division c.part c.chapter
          = .ok arts) →
      ∃ r, processChaptersW site chs = .ok r := by
  intro chs
  induction chs with
  | nil => intro _; exact ⟨(0, 0), rfl⟩
  | cons c rest ih =>
    intro h
    have hc : ∃ r1, processChapterW site c = .ok r1 := by
      rw [processChapterW]
      by_cases ha : c.has_articles = true
      · obtain ⟨arts, harts⟩ := h c (by simp) ha
        rw [if_pos ha, harts, exceptBind_ok]
        exact ⟨_, rfl⟩
      · rw [if_neg ha]
        exact ⟨_, rfl⟩
    obtain ⟨r1, hr1⟩ := hc
    obtain ⟨r2, hr2⟩ := ih (fun c' hm ha => h c' (by simp [hm]) ha)
    refine ⟨(r1.1 + r2.1, r1.2 + r2.2), ?_⟩
    rw [processChaptersW, hr1, exceptBind_ok, hr2, exceptBind_ok]

theorem processPartsW_ok (site : WSite) :
    ∀ parts : List PartInfo,
      (∀ p ∈ parts, p.has_chapters = true →
        ∃ chs, get_chapters_for_part site p.url p.code p.division p.part = .ok chs ∧
          ∀ c ∈ chs, c.has_articles = true →
            ∃ arts, get_articles_for_chapter site c.url c.code c.division c.part c.chapter
              = .ok arts) →
      ∃ r, processPartsW site parts = .ok r := by
  intro parts
  induction parts with
  | nil => intro _; exact ⟨(0, 0), rfl⟩
  | cons p rest ih =>
    intro h
    have hp : ∃ r1, processPartW site p = .ok r1 := by
      rw [processPartW]
      by_cases hc : p.has_chapters = true
      · obtain ⟨chs, hchs, hinner⟩ := h p (by simp) hc
        rw [if_pos hc, hchs, exceptBind_ok]
        by_cases he : chs.isEmpty
        · rw [if_pos he]; exact ⟨_, rfl⟩
        · rw [if_neg he]; exact processChaptersW_ok site chs hinner
      · rw [if_neg hc]
        exact ⟨_, rfl⟩
    obtain ⟨r1, hr1⟩ := hp
    obtain ⟨r2, hr2⟩ := ih (fun p' hm hc => h p' (by simp [hm]) hc)
    refine ⟨(r1.1 + r2.1, r1.2 + r2.2), ?_⟩
    rw [processPartsW, hr1, exceptBind_ok, hr2, exceptBind_ok]

/-- C1 (amended): in water-code-scraper.py, errors while scraping a leaf's
content are caught at the leaf-processing try-block and the run continues
to the next sibling — whenever every expansion (listing-page) fetch
succeeds, the code-section run completes with a result regardless of leaf
fetch/parse failures; but a fetch error during expansion itself is NOT
caught: when the first discovered part's chapter-listing fetch raises, the
error propagates past every boundary and `scrape_code_section` aborts with
that error. -/
theorem C1_error_isolation :
    (∀ (site : WSite) (config : CodeConfig) (parts : List PartInfo),
       get_division_structure site config.code config.division config.parts = .ok parts →
       (∀ p ∈ parts, p.has_chapters = true →
         ∃ chs, get_chapters_for_part site p.url p.code p.division p.part = .ok chs ∧
           ∀ c ∈ chs, c.has_articles = true →
             ∃ arts, get_articles_for_chapter site c.url c.code c.division c.part c.chapter
               = .ok arts) →
       ∃ r, scrape_code_section site config = .ok r) ∧
    (∀ (site : WSite) (config : CodeConfig) (p : PartInfo) (rest : List PartInfo)
       (e : String),
       get_division_structure site config.code config.division config.parts = .ok (p :: rest) →
       p.has_chapters = true →
       get_chapters_for_part site p.url p.code p.division p.part = .error e →
       scrape_code_section site config = .error e) := by
  constructor
  · intro site config parts hdiv hexp
    unfold scrape_code_section
    rw [hdiv, exceptBind_ok]
    by_cases he : parts.isEmpty
    · rw [if_pos he]; exact ⟨_, rfl⟩
    · rw [if_neg he]; exact processPartsW_ok site parts hexp
  · intro site config p rest e hdiv hch herr
    unfold scrape_code_section
    rw [hdiv, exceptBind_ok, if_neg (by simp), processPartsW, processPartW,
        if_pos hch, herr, exceptBind_err, exceptBind_err]

/-- Href of the single expandable part of the C1 scenario. -/
def c1PartHref : String :=
  "/faces/codes_displayexpandedbranch.xhtml?tocCode=WAT&division=6.&part=1."

/-- Href of the single direct-content chapter of the C1 scenario. -/
def c1ChapHref : String :=
  "/faces/codes_displayText.xhtml?tocCode=WAT&division=6.&part=1.&chapter=2."

/-- Division listing page with one expandable part. -/
def c1DivPage : Html :=
  .elem "[document]" []
    (hl [.elem "div" [("id", "expandedbranchcodesid")]
      (hl [.elem "a" [("href", c1PartHref)]
        (hl [.elem "div" [("style", "margin-left:20px")]
          (hl [.text "PART 1. GENERAL"])])])])

/-- Chapter listing page with one direct-content chapter. -/
def c1ChapsPage : Html :=
  .elem "[document]" []
    (hl [.elem "div" [("id", "expandedbranchcodesid")]
      (hl [.elem "a" [("href", c1ChapHref)]
        (hl [.elem "div" [("style", "margin-left:30px")]
          (hl [.text "CHAPTER 2. X"])])])])

/-- The configuration used in the C1 scenario. -/
def c1Cfg : CodeConfig := ⟨"WAT", "Water Code", "6", none⟩

/-- Site where every fetch after the division listing raises: the first
part's chapter-listing expansion fails. -/
def c1AbortSite : WSite :=
  ⟨fun u => if u = divisionUrl "WAT" "6" then .ok c1DivPage else .error "boom"⟩

/-- Site where discovery succeeds but the leaf content fetch raises. -/
def c1TolSite : WSite :=
  ⟨fun u =>
    if u = divisionUrl "WAT" "6" then .ok c1DivPage
    else if u = urljoinW c1PartHref then .ok c1ChapsPage
    else .error "net down"⟩

/-- The part discovered from `c1DivPage`. -/
def c1Part : PartInfo :=
  { url := urljoinW c1PartHref, title := "PART 1. GENERAL", part := "1.",
    code := "WAT", division := "6", has_chapters := true, range := "",
    chapters := [] }

/-- The chapter discovered from `c1ChapsPage`. -/
def c1Chapter : ChapterInfo :=
  { url := urljoinW c1ChapHref, title := "CHAPTER 2. X", code := "WAT",
    division := "6", part := "1.", chapter := "2.", has_articles := false,
    range := "", articles := [] }

/-- C1 counterexample: a fetch error during expansion of the first part's
chapter listing is not caught — `scrape_code_section` aborts with the
error instead of treating the subtree as empty and continuing. -/
theorem C1_counterexample : scrape_code_section c1AbortSite c1Cfg = .error "boom" := by
  decide

/-- C1 witness: with all expansion fetches succeeding and the single leaf
fetch failing, the run still completes (the leaf failure is caught). -/
theorem C1_witness : ∃ r, scrape_code_section c1TolSite c1Cfg = .ok r :=
  C1_error_isolation.1 c1TolSite c1Cfg [c1Part] (by decide)
    (by
      intro p hp hhc
      rw [List.mem_singleton] at hp
      subst hp
      refine ⟨[c1Chapter], by decide, ?_⟩
      intro c hc hart
      rw [List.mem_singleton] at hc
      subst hc
      exact absurd hart (by decide))

theorem processSections_spec (site : CSite) (i : Nat) :
    ∀ (secs : List SectionEntry) (j : Nat),
      (processSections site i j secs).written =
        (processSections site i j secs).logs.length ∧
      ((processSections site i j secs).logs.map (·.images)).flatten =
        (processSections site i j secs).included.map (·.local_file) ∧
      (processSections site i j secs).written =
        (secs.filter
          (fun s => (extract_section_content site s.url s.title).1 ≠ "")).length := by
  intro secs
  induction secs with
  | nil => intro j; exact ⟨rfl, rfl, rfl⟩
  | cons s rest ih =>
    intro j
    obtain ⟨ih1, ih2, ih3⟩ := ih (j + 1)
    by_cases hc : (extract_section_content site s.url s.title).1 ≠ ""
    · simp only [processSections, if_pos hc, List.map_cons, List.flatten_cons,
                 List.length_cons, List.map_append, List.filter_cons,
                 decide_eq_true hc, if_pos trivial]
      exact ⟨by rw [ih1], by rw [ih2], by rw [ih3]⟩
    · simp only [processSections, if_neg hc, List.filter_cons,
                 decide_eq_false hc, Bool.false_eq_true, if_false]
      exact ⟨ih1, ih2, ih3⟩

theorem processArticlesC_spec (site : CSite) :
    ∀ (arts : List ArticleEntry) (i : Nat),
      (processArticlesC site i arts).logs.map (·.title) = arts.map (·.title) ∧
      (processArticlesC site i arts).written =
        ((processArticlesC site i arts).logs.map (fun al => al.sections.length)).sum ∧
      ((processArticlesC site i arts).logs.map
          (fun al => (al.sections.map (·.images)).flatten)).flatten =
        (processArticlesC site i arts).included.map (·.local_file) ∧
      (processArticlesC site i arts).written =
        (arts.map (fun a =>
          ((extract_sections_from_article site a.url).filter
            (fun s => (extract_section_content site s.url s.title).1 ≠ "")).length)).sum := by
  intro arts
  induction arts with
  | nil => intro i; exact ⟨rfl, rfl, rfl, rfl⟩
  | cons a rest ih =>
    intro i
    obtain ⟨ih1, ih2, ih3, ih4⟩ := ih (i + 1)
    obtain ⟨hs1, hs2, hs3⟩ :=
      processSections_spec site i (extract_sections_from_article site a.url) 1
    simp only [processArticlesC, List.map_cons, List.flatten_cons, List.map_append,
               List.sum_cons]
    refine ⟨by rw [ih1], ?_, ?_, ?_⟩
    · rw [ih2, hs1]
    · rw [ih3, hs2]
    · rw [ih4, hs3]

/-- C9 (amended): at the end of a run the `scraping_log` accumulator holds
the ordered list of discovered articles; per article only its successfully
written sections are nested; `total_sections` counts leaves successfully
written (sections whose extracted content is non-empty) — no count of
leaves visited is recorded; `images_downloaded` is the length of the
flattened image-record list `all_images`, which is kept as a separate
accumulator (serialized to its own metadata file) restricted to images of
written sections, and agrees with the per-section filename lists of the
log. -/
theorem C9_manifest_contents (site : CSite) (chapterUrl : String) :
    (scrape_chapter_3_5 site chapterUrl).log.articles.map (·.title) =
      (extract_articles_from_chapter site chapterUrl).map (·.title) ∧
    (scrape_chapter_3_5 site chapterUrl).log.total_sections =
      ((extract_articles_from_chapter site chapterUrl).map (fun a =>
        ((extract_sections_from_article site a.url).filter
          (fun s => (extract_section_content site s.url s.title).1 ≠ "")).length)).sum ∧
    (scrape_chapter_3_5 site chapterUrl).log.images_downloaded =
      (scrape_chapter_3_5 site chapterUrl).all_images.length ∧
    ((scrape_chapter_3_5 site chapterUrl).log.articles.map
        (fun al => (al.sections.map (·.images)).flatten)).flatten =
      (scrape_chapter_3_5 site chapterUrl).all_images.map (·.local_file) := by
  obtain ⟨h1, _, h3, h4⟩ :=
    processArticlesC_spec site (extract_articles_from_chapter site chapterUrl) 1
  exact ⟨h1, h4, rfl, h3⟩

/-- Article url of the C9 concrete run. -/
def c9ArtU : String := "https://shared-govt.westlaw.com/art1"

/-- Chapter url of the C9 concrete run. -/
def c9ChapU : String := "https://shared-govt.westlaw.com/chap"

/-- Section urls of the C9 concrete run. -/
def c9Sec1U : String := "https://shared-govt.westlaw.com/s1"

/-- Second section url of the C9 concrete run. -/
def c9Sec2U : String := "https://shared-govt.westlaw.com/s2"

/-- One `li` entry holding an anchor. -/
def liLink (title url : String) : Html :=
  .elem "li" [] (hl [.elem "a" [("href", url)] (hl [.text title])])

/-- A `co_genericWhiteBox` listing page. -/
def listPage (items : List (String × String)) : Html :=
  .elem "[document]" []
    (hl [.elem "ul" [("class", "co_genericWhiteBox")]
      (hl (items.map (fun p => liLink p.1 p.2)))])

/-- Section page with a `co_document` container and one paragraph block. -/
def c9GoodSecPage : Html :=
  .elem "[document]" []
    (hl [.elem "div" [("id", "co_document")]
      (hl [.elem "div" [("class", "co_contentBlock co_paragraph")]
        (hl [.text "Hello law."])])])

/-- Section page with no `co_document` container but one qualifying image. -/
def c9BadSecPage : Html :=
  .elem "[document]" []
    (hl [.elem "div" [("class", "co_figureBlock")]
      (hl [.elem "img" [("src", "/i/f.png"), ("alt", "Water loss equation")] .nil])])

/-- The C9 concrete site: one article, two sections, one of which yields no
content (its page has no `co_document`) although its image downloads. -/
def c9Site : CSite :=
  { fetch := fun u =>
      if u = c9ChapU then some (listPage [("Article 1", "/art1")])
      else if u = c9ArtU then some (listPage [("Sec A", "/s1"), ("Sec B", "/s2")])
      else if u = c9Sec1U then some c9GoodSecPage
      else if u = c9Sec2U then some c9BadSecPage
      else none,
    download := fun _ => true }

/-- C9 counterexample: the run visits two leaves, but the accumulator
records `total_sections = 1` (written only) and `images_downloaded = 0`
— no field holds the visited count 2 — and its flattened image-record
list `all_images` is empty even though an image record was downloaded to
disk, so the accumulator does not contain the count of leaves visited nor
all extracted-image records. -/
theorem C9_counterexample :
    (extract_sections_from_article c9Site c9ArtU).length = 2 ∧
    (scrape_chapter_3_5 c9Site c9ChapU).log.total_sections = 1 ∧
    (scrape_chapter_3_5 c9Site c9ChapU).log.images_downloaded = 0 ∧
    (scrape_chapter_3_5 c9Site c9ChapU).log.total_sections ≠ 2 ∧
    (scrape_chapter_3_5 c9Site c9ChapU).log.images_downloaded ≠ 2 ∧
    (scrape_chapter_3_5 c9Site c9ChapU).all_images = [] ∧
    (scrape_chapter_3_5 c9Site c9ChapU).downloaded ≠ [] :=
  ⟨by decide, by decide, by decide, by decide, by decide, by decide, by decide⟩

mutual
theorem pmiNode_preserves_no_container (dl : String → Bool) (ttl idv : String)
    (pc : List String) :
    ∀ t : Html, isDivWithId idv t = false →
      findInside (isDivWithId idv) t = none →
      isDivWithId idv (pmiNode dl ttl pc t).1 = false ∧
      findInside (isDivWithId idv) (pmiNode dl ttl pc t).1 = none
  | .text _, _, _ => ⟨rfl, rfl⟩
  | .elem n a cs, hp, hf => by
    have hcs : findHtmlL (isDivWithId idv) cs = none := hf
    rw [pmiNode]
    by_cases hsel : (n = "img" && imgSelected pc a) = true
    · rw [if_pos hsel]
      cases hdl : download_image dl (resolveImgUrl ((getAttrA a "src").getD "")) ttl with
      | some f =>
        simp only [hdl]
        exact ⟨rfl, rfl⟩
      | none =>
        simp only [hdl]
        exact ⟨hp, pmiL_preserves_no_container dl ttl idv (classesA a) cs hcs⟩
    · rw [if_neg hsel]
      exact ⟨hp, pmiL_preserves_no_container dl ttl idv (classesA a) cs hcs⟩
theorem pmiL_preserves_no_container (dl : String → Bool) (ttl idv : String)
    (pc : List String) :
    ∀ l : HtmlList, findHtmlL (isDivWithId idv) l = none →
      findHtmlL (isDivWithId idv) (pmiL dl ttl pc l).1 = none
  | .nil, _ => rfl
  | .cons h t, hf => by
    rw [findHtmlL] at hf
    by_cases hph : isDivWithId idv h = true
    · rw [if_pos hph] at hf
      exact Option.noConfusion hf
    · rw [if_neg hph] at hf
      cases hfh : findInside (isDivWithId idv) h with
      | some r => rw [hfh] at hf; exact Option.noConfusion hf
      | none =>
        rw [hfh] at hf
        have hh := pmiNode_preserves_no_container dl ttl idv pc h
          (by simpa using hph) hfh
        have ht := pmiL_preserves_no_container dl ttl idv pc t hf
        rw [pmiL, findHtmlL, if_neg (by simp [hh.1]), hh.2, ht]
end

/-- Chapter url of the C10 scenario. -/
def c10ChapU : String := "https://shared-govt.westlaw.com/chapX"

/-- Article url of the C10 scenario. -/
def c10ArtU : String := "https://shared-govt.westlaw.com/artX"

/-- Section url of the C10 scenario. -/
def c10SecU : String := "https://shared-govt.westlaw.com/secX"

/-- Chapter listing page of the C10 scenario. -/
def c10ChapterPage : Html := listPage [("Article 1", "/artX")]

/-- Article listing page of the C10 scenario. -/
def c10ArticlePage : Html := listPage [("Sec B", "/secX")]

/-- A single-article single-section run whose one section page is the
arbitrary document `p`. -/
def c10Site (p : Html) (dl : String → Bool) : CSite :=
  { fetch := fun u =>
      if u = c10ChapU then some c10ChapterPage
      else if u = c10ArtU then some c10ArticlePage
      else if u = c10SecU then some p
      else none,
    download := dl }

/-- C10: formula-image processing runs before the `co_document` lookup.
For a section page with no `co_document` container, extraction returns
empty content paired with the already-extracted image records; in the
surrounding run those images were downloaded to disk (they appear in the
run's downloaded list), yet the section is dropped by the caller — the log
holds the article with no sections, `total_sections` stays 0, and the
`all_images` accumulator (the image metadata) stays empty, so the
downloaded files appear in neither the scraping log nor the image
metadata. -/
theorem C10_images_before_container (p : Html) (dl : String → Bool)
    (hno : findInside (isDivWithId "co_document") p = none) :
    extract_section_content (c10Site p dl) c10SecU "Sec B" =
      ("", (process_mathematical_images dl "Sec B" p).2) ∧
    (scrape_chapter_3_5 (c10Site p dl) c10ChapU).downloaded =
      (process_mathematical_images dl "Sec B" p).2 ∧
    (scrape_chapter_3_5 (c10Site p dl) c10ChapU).all_images = [] ∧
    (scrape_chapter_3_5 (c10Site p dl) c10ChapU).log.articles =
      [{ title := "Article 1", url := c10ArtU, sections := [] }] ∧
    (scrape_chapter_3_5 (c10Site p dl) c10ChapU).log.total_sections = 0 := by
  have hfsec : (c10Site p dl).fetch c10SecU = some p := by
    simp [c10Site, c10SecU, c10ChapU, c10ArtU]
  have hnone : findInside (isDivWithId "co_document")
      (process_mathematical_images dl "Sec B" p).1 = none := by
    cases p with
    | text s => exact rfl
    | elem n a cs =>
      exact pmiL_preserves_no_container dl "Sec B" "co_document" (classesA a) cs hno
  have hdl2 : (c10Site p dl).download = dl := rfl
  have hextract : extract_section_content (c10Site p dl) c10SecU "Sec B" =
      ("", (process_mathematical_images dl "Sec B" p).2) := by
    simp only [extract_section_content, hfsec, hdl2, hnone]
  have harts : extract_articles_from_chapter (c10Site p dl) c10ChapU =
      [{ title := "Article 1", url := c10ArtU }] := by
    have hfc : (c10Site p dl).fetch c10ChapU = some c10ChapterPage := by
      simp [c10Site]
    simp only [extract_articles_from_chapter, hfc]
    decide
  have hsecs : extract_sections_from_article (c10Site p dl) c10ArtU =
      [{ title := "Sec B", url := c10SecU }] := by
    have hfa : (c10Site p dl).fetch c10ArtU = some c10ArticlePage := by
      simp [c10Site, c10ArtU, c10ChapU]
    simp only [extract_sections_from_article, hfa]
    decide
  have hurl : urljoinShared "/secX" = c10SecU := by decide
  have htitle : getTextStrip (Html.elem "a" [("href", "/secX")] (hl [Html.text "Sec B"])) =
      "Sec B" := by decide
  have hurlA : urljoinShared "/artX" = c10ArtU := by decide
  have htitleA : getTextStrip (Html.elem "a" [("href", "/artX")] (hl [Html.text "Article 1"])) =
      "Article 1" := by decide
  refine ⟨hextract, ?_, ?_, ?_, ?_⟩ <;>
    simp [scrape_chapter_3_5, harts, processArticlesC, hsecs, processSections,
          hurl, htitle, hurlA, htitleA, hextract]

/-- Section page of the C10 witness run: no `co_document` container, one
qualifying image (figure-tagged parent, alt "Water loss equation"). -/
def c10BadPage : Html :=
  .elem "[document]" []
    (hl [.elem "div" [("class", "co_figureBlock")]
      (hl [.elem "img" [("src", "/i/f.png"), ("alt", "Water loss equation")] .nil])])

/-- C10 witness: the theorem applied to the concrete contentless page, with
the extracted (and downloaded) record list being non-empty. -/
theorem C10_witness :
    (extract_section_content (c10Site c10BadPage (fun _ => true)) c10SecU "Sec B" =
      ("", (process_mathematical_images (fun _ => true) "Sec B" c10BadPage).2) ∧
     (scrape_chapter_3_5 (c10Site c10BadPage (fun _ => true)) c10ChapU).downloaded =
      (process_mathematical_images (fun _ => true) "Sec B" c10BadPage).2 ∧
     (scrape_chapter_3_5 (c10Site c10BadPage (fun _ => true)) c10ChapU).all_images = [] ∧
     (scrape_chapter_3_5 (c10Site c10BadPage (fun _ => true)) c10ChapU).log.articles =
      [{ title := "Article 1", url := c10ArtU, sections := [] }] ∧
     (scrape_chapter_3_5 (c10Site c10BadPage (fun _ => true)) c10ChapU).log.total_sections
      = 0) ∧
    (process_mathematical_images (fun _ => true) "Sec B" c10BadPage).2 =
      [{ original_url := "https://govt.westlaw.com/i/f.png",
         local_file := "Sec_B_f.png", alt_text := "Water loss equation",
         description := "Mathematical formula from Sec B" }] :=
  ⟨C10_images_before_container c10BadPage (fun _ => true) (by decide), by decide⟩
